import Mathlib

/-!
Shallow embedding of the Resource Rotation Engine of `src/main.go`
(`haolong722/server_manger`).

The relational store is modelled as an in-memory pair of row lists
(`DBState`): one list for the per-kind Resource Record tables (each row
tagged with its table name) and one for the `server_domains` table.
A gorm transaction (`db.Begin` / `tx.Rollback` / `tx.Commit`) is modelled
by building the candidate post-state purely and returning it only on the
`.ok` branch; every `tx.Rollback(); return err` in the source becomes an
`.error` result that discards the candidate writes.  Fallible store
operations whose error the Go code checks are driven by a fault oracle
(`Faults`); `rand.Intn` is driven by a draw oracle (`draws : Nat → Nat`),
with `rand.Intn n = draws i % n`.  SQL `ORDER BY last_used_time ASC` over
the insertion-ordered row list is modelled as a stable insertion sort,
and int64 columns as `Int`.
-/

namespace ServerManager

/-- The three Resource Record tables, as listed throughout `main.go`. -/
def validTables : List String :=
  ["v2_server_vless", "v2_server_shadowsocks", "v2_server_vmess"]

/-- One row of a Resource Record table, restricted to the columns the
engine reads or writes (`id, port, server_port, host, next_update_time,
last_update_status`), tagged with its table name. -/
structure ServerRow where
  table : String
  id : Nat
  port : String
  serverPort : Int
  host : String
  nextUpdateTime : Int
  lastUpdateStatus : String
deriving Repr, DecidableEq

/-- One row of the `server_domains` table (struct `ServerDomain` in
`main.go`).  `InUse` is a 0/1 tinyint in Go, written only as 0 or 1,
modelled as `Bool`. -/
structure ServerDomain where
  id : Nat
  serverTable : String
  serverId : Nat
  domain : String
  inUse : Bool
  order : Int
  lastUsedTime : Int
deriving Repr, DecidableEq

/-- The two stores: all Resource Record rows (across the three kind
tables) and all Domain Entry rows, each in insertion order. -/
structure DBState where
  servers : List ServerRow
  domains : List ServerDomain
deriving Repr, DecidableEq

/-- `db.Table(table).Where("id = ?", id).First(...)`. -/
def findRec (s : DBState) (table : String) (id : Nat) : Option ServerRow :=
  s.servers.find? fun r => decide (r.table = table ∧ r.id = id)

/-- Stable insert for the `ORDER BY last_used_time ASC` model: the new
row goes in front of the first row whose `last_used_time` is not
smaller, so rows with equal keys keep their original relative order. -/
def insertByTime (d : ServerDomain) : List ServerDomain → List ServerDomain
  | [] => [d]
  | e :: es =>
    if d.lastUsedTime ≤ e.lastUsedTime then d :: e :: es
    else e :: insertByTime d es

/-- Stable sort by `last_used_time` (model of `ORDER BY last_used_time
ASC` over the insertion-ordered row list). -/
def sortByTime : List ServerDomain → List ServerDomain
  | [] => []
  | d :: ds => insertByTime d (sortByTime ds)

/-- The WHERE clause of the eligible-domain query in `updateServer`
(lines 725-731): owner match, `in_use = 0`,
`(last_used_time = 0 OR last_used_time <= now - 3*3600)`, and
`domain != host` — the last condition only added when `host` is
non-empty. -/
def eligibleFilter (table : String) (sid : Nat) (now : Int) (host : String)
    (d : ServerDomain) : Bool :=
  decide (d.serverTable = table ∧ d.serverId = sid ∧ d.inUse = false ∧
    (d.lastUsedTime = 0 ∨ d.lastUsedTime ≤ now - 3 * 3600) ∧
    (host = "" ∨ ¬ d.domain = host))

/-- The eligible-domain query of `updateServer`: filter then order by
`last_used_time` ascending. -/
def eligibleList (l : List ServerDomain) (table : String) (sid : Nat)
    (now : Int) (host : String) : List ServerDomain :=
  sortByTime (l.filter (eligibleFilter table sid now host))

/-- Environment of a rotation: the global config (`minPort`, `maxPort`,
`updateIntervalHours`) and the random-draw oracle standing for
`rand.Intn`. -/
structure RotateEnv where
  minPort : Int
  maxPort : Int
  updateIntervalHours : Int
  draws : Nat → Nat

/-- The i-th value of `rand.Intn(maxPort-minPort+1) + minPort`
(line 711): the oracle's i-th draw reduced mod the range size. -/
def drawVal (env : RotateEnv) (i : Nat) : Int :=
  env.minPort + Int.ofNat (env.draws i % (env.maxPort - env.minPort + 1).toNat)

/-- The port-selection loop of `updateServer` (lines 709-720): up to 100
draws, stopping at the first draw different from the current port;
`none` models the `无法找到不同的端口` error after 100 equal draws. -/
def pickPort (env : RotateEnv) (exclude : Int) : Option Int :=
  (List.range 100).findSome? fun i =>
    let p := drawVal env i
    if p ≠ exclude then some p else none

/-- Fault oracle for the store operations of one `updateServer` call
whose error the Go code checks (each checked `.Error` becomes a
rollback-and-return). -/
structure Faults where
  readRecordFails : Bool
  releaseFails : Bool
  listFails : Bool
  recordWriteFails : Bool
  claimFails : Bool
  orderWriteFails : Bool
  commitFails : Bool
deriving Repr, DecidableEq

/-- A fault-free oracle. -/
def noFaults : Faults :=
  ⟨false, false, false, false, false, false, false⟩

/-- The typed failures of `updateServer`, one per checked error path. -/
inductive RotErr where
  | recordReadFailed
  | releaseFailed
  | noDistinctPort
  | listFailed
  | noAvailableDomain
  | recordWriteFailed
  | claimFailed
  | orderWriteFailed
  | commitFailed
deriving Repr, DecidableEq

/-- The error strings of `updateServer`, as embedded in its Go error
returns (the underlying store error text is not modelled). -/
def rotErrMsg : RotErr → String
  | .recordReadFailed => "获取服务器数据失败"
  | .releaseFailed => "释放域名失败"
  | .noDistinctPort => "无法找到不同的端口"
  | .listFailed => "获取可用域名失败"
  | .noAvailableDomain => "无可用域名"
  | .recordWriteFailed => "更新服务器记录失败"
  | .claimFailed => "标记域名失败"
  | .orderWriteFailed => "更新域名顺序失败"
  | .commitFailed => "事务提交失败"

/-- The release write (line 698): `UPDATE server_domains SET in_use = 0
WHERE server_table = ? AND server_id = ? AND domain = ?`, per row. -/
def releaseRow (table : String) (sid : Nat) (host : String)
    (d : ServerDomain) : ServerDomain :=
  if d.serverTable = table ∧ d.serverId = sid ∧ d.domain = host then
    { d with inUse := false }
  else d

/-- The `domainCount` probe before the release (line 694): does any row
match the current host? -/
def hostRowExists (l : List ServerDomain) (table : String) (sid : Nat)
    (host : String) : Bool :=
  l.any fun d => decide (d.serverTable = table ∧ d.serverId = sid ∧ d.domain = host)

/-- The domains list after the release block of `updateServer` (lines
692-705): the release update runs only when the host is non-empty and a
matching row was counted. -/
def releasedDomains (l : List ServerDomain) (table : String) (sid : Nat)
    (host : String) : List ServerDomain :=
  if ¬ host = "" ∧ hostRowExists l table sid host then
    l.map (releaseRow table sid host)
  else l

/-- The claim write (lines 766-769): `UPDATE server_domains SET
in_use = 1, last_used_time = now WHERE id = ?`, per row. -/
def claimRow (selId : Nat) (now : Int) (d : ServerDomain) : ServerDomain :=
  if d.id = selId then { d with inUse := true, lastUsedTime := now } else d

/-- The order bump write (line 780): `UPDATE server_domains SET order = ?
WHERE id = ?`, per row. -/
def bumpRow (selId : Nat) (newOrder : Int) (d : ServerDomain) : ServerDomain :=
  if d.id = selId then { d with order := newOrder } else d

/-- `SELECT MAX(order) FROM server_domains WHERE server_table = ? AND
server_id = ?` scanned into an int: `NULL` (no rows) scans as 0. -/
def maxOrderFor (l : List ServerDomain) (table : String) (sid : Nat) : Int :=
  match ((l.filter fun d => decide (d.serverTable = table ∧ d.serverId = sid)).map
      fun d => d.order).max? with
  | none => 0
  | some m => m

/-- The Resource Record write of `updateServer` (lines 752-758): new
`port` (decimal string), `server_port`, `host`, `next_update_time`. -/
def recordUpdateRow (table : String) (id : Nat) (nextPort : Int)
    (newHost : String) (nextDue : Int) (r : ServerRow) : ServerRow :=
  if r.table = table ∧ r.id = id then
    { r with port := toString nextPort, serverPort := nextPort,
             host := newHost, nextUpdateTime := nextDue }
  else r

/-- The domain-store writes of a successful rotation after the release:
claim the selected row, then (cron only) bump its `order` to the
owner's current maximum plus one (the MAX query runs on the
post-claim transaction state). -/
def rotatedDomains (doms1 : List ServerDomain) (table : String) (sid : Nat)
    (selId : Nat) (now : Int) (useOrder : Bool) : List ServerDomain :=
  if useOrder then
    (doms1.map (claimRow selId now)).map
      (bumpRow selId (maxOrderFor (doms1.map (claimRow selId now)) table sid + 1))
  else doms1.map (claimRow selId now)

/-- `updateServer(table, id, now, useOrder)` (lines 666-804): one
rotation as a single transaction.  Every checked error path in the
source rolls the transaction back and returns the corresponding error;
the candidate writes reach the store only through the final `.ok`. -/
def updateServer (env : RotateEnv) (f : Faults) (table : String) (id : Nat)
    (now : Int) (useOrder : Bool) (s : DBState) : Except RotErr DBState :=
  if f.readRecordFails then .error .recordReadFailed else
  match findRec s table id with
  | none => .error .recordReadFailed
  | some cur =>
    if ¬ cur.host = "" ∧ hostRowExists s.domains table id cur.host ∧
        f.releaseFails then .error .releaseFailed else
    match pickPort env cur.serverPort with
    | none => .error .noDistinctPort
    | some nextPort =>
      if f.listFails then .error .listFailed else
      match eligibleList (releasedDomains s.domains table id cur.host)
          table id now cur.host with
      | [] => .error .noAvailableDomain
      | nextDomain :: _ =>
        if f.recordWriteFails then .error .recordWriteFailed else
        if f.claimFails then .error .claimFailed else
        if useOrder ∧ f.orderWriteFails then .error .orderWriteFailed else
        if f.commitFails then .error .commitFailed else
        .ok { servers := s.servers.map
                (recordUpdateRow table id nextPort nextDomain.domain
                  (now + env.updateIntervalHours * 3600)),
              domains := rotatedDomains (releasedDomains s.domains table id cur.host)
                table id nextDomain.id now useOrder }

/-- The store a caller observes after an operation: the new state on
success, the untouched pre-state plus the error on rollback. -/
def runOp {ε : Type} (s : DBState) (r : Except ε DBState) : DBState × Option ε :=
  match r with
  | .ok s' => (s', none)
  | .error e => (s, some e)

/-- One `updateServer` call as observed by its caller. -/
def runUpdateServer (env : RotateEnv) (f : Faults) (table : String) (id : Nat)
    (now : Int) (useOrder : Bool) (s : DBState) : DBState × Option RotErr :=
  runOp s (updateServer env f table id now useOrder s)

/-- Per-row effect of
`db.Table(table).Where("id = ?", id).Update("last_update_status", st)`. -/
def statusRow (table : String) (id : Nat) (st : String) (r : ServerRow) :
    ServerRow :=
  if r.table = table ∧ r.id = id then { r with lastUpdateStatus := st } else r

/-- Per-row effect of the scheduler's exhaustion write (lines 654-657):
failure status plus a forced `next_update_time`. -/
def failRow (table : String) (id : Nat) (st : String) (nextDue : Int)
    (r : ServerRow) : ServerRow :=
  if r.table = table ∧ r.id = id then
    { r with lastUpdateStatus := st, nextUpdateTime := nextDue }
  else r

/-- `db.Table(table).Where("id = ?", id).Update("last_update_status", st)`. -/
def writeLastStatus (s : DBState) (table : String) (id : Nat) (st : String) :
    DBState :=
  { s with servers := s.servers.map (statusRow table id st) }

/-- The exhaustion write of the scheduler (lines 654-657). -/
def writeFailStatus (s : DBState) (table : String) (id : Nat) (st : String)
    (nextDue : Int) : DBState :=
  { s with servers := s.servers.map (failRow table id st nextDue) }

/-- The scheduler's handling of one due record (lines 640-660): up to
three `updateServer` attempts with `useOrder = true`; the first success
writes `更新成功` and stops; if all three fail, write the failure status
and force `next_update_time = now + updateIntervalHours*3600`.  `af i`
is the fault oracle of attempt `i`. -/
def sweepOne (env : RotateEnv) (af : Nat → Faults) (table : String) (id : Nat)
    (now : Int) (s : DBState) : DBState :=
  match updateServer env (af 0) table id now true s with
  | .ok s0 => writeLastStatus s0 table id "更新成功"
  | .error _ =>
    match updateServer env (af 1) table id now true s with
    | .ok s1 => writeLastStatus s1 table id "更新成功"
    | .error _ =>
      match updateServer env (af 2) table id now true s with
      | .ok s2 => writeLastStatus s2 table id "更新成功"
      | .error e2 =>
        writeFailStatus s table id ("更新失败：" ++ rotErrMsg e2)
          (now + env.updateIntervalHours * 3600)

/-- The due query of one sweep for one table (line 636):
`next_update_time <= now`, returning the ids. -/
def dueIds (s : DBState) (table : String) (now : Int) : List Nat :=
  ((s.servers.filter fun r =>
      decide (r.table = table ∧ r.nextUpdateTime ≤ now)).map fun r => r.id)

/-- One table's pass of a sweep (lines 631-661): fetch that table's due
records, then process each with `sweepOne`, continuing with the
remaining records whatever each one's outcome. -/
def tableStep (env : RotateEnv) (af : String → Nat → Nat → Faults)
    (t : String) (now : Int) (s : DBState) : DBState :=
  (dueIds s t now).foldl (fun st2 i => sweepOne env (af t i) t i now st2) s

/-- `checkAndUpdateServers` (lines 627-663): one sweep over the three
kind tables.  `af t i j` is the fault oracle of attempt `j` for record
`i` of table `t`. -/
def checkAndUpdateServers (env : RotateEnv) (af : String → Nat → Nat → Faults)
    (now : Int) (s : DBState) : DBState :=
  validTables.foldl (fun st t => tableStep env af t now st) s

/-- The `(table, id)` key of a Resource Record row. -/
def keyOf (r : ServerRow) : String × Nat := (r.table, r.id)

/-- Auto-increment id of a freshly inserted `server_domains` row. -/
def freshDomainId (l : List ServerDomain) : Nat :=
  l.foldl (fun m d => max m d.id) 0 + 1

/-- The failures of the `/add-domain` handler.  `createFailed` is the
store rejecting the insert: the gorm tag on `ServerDomain.Domain`
(`uniqueIndex:unique_domain_per_server` on that one column) makes
`domain` globally unique across all owners, so `db.Create` fails
whenever the domain already exists for any owner. -/
inductive AddErr where
  | invalidInput
  | duplicateDomain
  | createFailed
deriving Repr, DecidableEq

/-- The `/add-domain` handler (lines 287-345): validate, reject an
existing `(table, id, domain)` with the duplicate error, then insert
with `order = MAX(order)+1`, `in_use = 0`, `last_used_time = 0`. -/
def addDomain (s : DBState) (table : String) (id : Nat) (domain : String) :
    Except AddErr DBState :=
  if ¬ (table ∈ validTables) ∨ id = 0 ∨ domain = "" then .error .invalidInput else
  if s.domains.any (fun d =>
      decide (d.serverTable = table ∧ d.serverId = id ∧ d.domain = domain)) then
    .error .duplicateDomain
  else
  if s.domains.any (fun d => decide (d.domain = domain)) then .error .createFailed
  else
  .ok { s with domains := s.domains ++
    [{ id := freshDomainId s.domains, serverTable := table, serverId := id,
       domain := domain, inUse := false,
       order := maxOrderFor s.domains table id + 1, lastUsedTime := 0 }] }

/-- The failures of the `/delete-domain` handler. -/
inductive RemErr where
  | invalidInput
  | notFound
  | inUse
  | isCurrentHost
deriving Repr, DecidableEq

/-- The `/delete-domain` handler (lines 348-410): find the entry, reject
an in-use entry, reject the owning record's current host (the host
check is skipped when the record read fails), otherwise delete. -/
def deleteDomain (s : DBState) (table : String) (id : Nat) (domainId : Nat) :
    Except RemErr DBState :=
  if ¬ (table ∈ validTables) ∨ id = 0 ∨ domainId = 0 then .error .invalidInput else
  match s.domains.find? (fun d =>
      decide (d.id = domainId ∧ d.serverTable = table ∧ d.serverId = id)) with
  | none => .error .notFound
  | some d =>
    if d.inUse then .error .inUse else
    let remaining := s.domains.filter fun e =>
      decide (¬ (e.id = domainId ∧ e.serverTable = table ∧ e.serverId = id))
    let del : DBState := { s with domains := remaining }
    match findRec s table id with
    | some r => if r.host = d.domain then .error .isCurrentHost else .ok del
    | none => .ok del

/-- The `/set-interval` handler (lines 413-434): reject a non-positive
interval, otherwise return the new global interval and set
`next_update_time = now + interval*3600` on every row of the three kind
tables. -/
def setIntervalHandler (s : DBState) (hrs : Int) (now : Int) :
    Option (Int × DBState) :=
  if hrs ≤ 0 then none
  else some (hrs, { s with servers := s.servers.map fun r =>
    if r.table ∈ validTables then { r with nextUpdateTime := now + hrs * 3600 }
    else r })

/-- The marking write of `initUsedResources` (lines 614-617), per row:
`in_use = 1, last_used_time = now`. -/
def markedRow (now : Int) (d : ServerDomain) : ServerDomain :=
  { d with inUse := true, lastUsedTime := now }

/-- One record's marking pass of `initUsedResources` (lines 612-621):
when the record's host is non-empty, set `in_use = 1, last_used_time =
now` on every row matching `(table, id, host)`. -/
def markRecord (l : List ServerDomain) (table : String) (rid : Nat)
    (host : String) (now : Int) : List ServerDomain :=
  if host = "" then l
  else l.map fun d =>
    if d.serverTable = table ∧ d.serverId = rid ∧ d.domain = host then
      markedRow now d
    else d

/-- The record list `initUsedResources` walks: for each kind table in
order, the rows of that table in insertion order. -/
def initRecs (s : DBState) : List ServerRow :=
  (validTables.map fun t => s.servers.filter fun r => decide (r.table = t)).flatten

/-- The domain rows after `initUsedResources` (lines 600-624): only the
marking pass applies, on the *unchanged* rows.  The function's first
statement, `db.Model(&ServerDomain{}).Updates(in_use = 0,
last_used_time = 0)` (line 602), carries no WHERE condition, and this
repository uses GORM v2 (`gorm.io/gorm`), whose Block Global Updates
guard rejects a condition-less batch update with
`ErrMissingWhereClause`; the code only logs that error (contrast the
`.Where("1 = 1")` escape the set-interval handler uses at line 427), so
the reset writes nothing. -/
def markDomains (s : DBState) (now : Int) : List ServerDomain :=
  (initRecs s).foldl (fun ds r => markRecord ds r.table r.id r.host now)
    s.domains

/-- `initUsedResources` (lines 600-624), run once at process start: the
blocked (no-op) reset followed by the marking of each record's
non-empty current host — see `markDomains`. -/
def initUsedResources (s : DBState) (now : Int) : DBState :=
  { s with domains := markDomains s now }

/-- Restart fixture: the record holds `domain1.com`; `domain2.com` was
released but last used at time 95000, within the 3-hour cooldown of
the restart time 100000. -/
def restartState : DBState :=
  ⟨[⟨"v2_server_vless", 4, "8080", 8080, "domain1.com", 0, ""⟩],
   [⟨1, "v2_server_vless", 4, "domain1.com", true, 1, 90000⟩,
    ⟨2, "v2_server_vless", 4, "domain2.com", false, 2, 95000⟩]⟩

/-- The cooldown disjunct of the eligibility predicate: never used, or
last used at least three hours before `now`. -/
def cooldownOK (now : Int) (d : ServerDomain) : Bool :=
  decide (d.lastUsedTime = 0 ∨ d.lastUsedTime ≤ now - 3 * 3600)

/-- The Domain Entries of one `(table, server_id)` owner that are
currently marked in use. -/
def inUseRows (l : List ServerDomain) (table : String) (sid : Nat) :
    List ServerDomain :=
  l.filter fun d => decide (d.serverTable = table ∧ d.serverId = sid ∧
    d.inUse = true)

/-- Concrete pool fixture (Scenario A of the spec): the current host
`domain1.com` in use, a never-used `domain2.com`, and a cooled-down
`domain3.com`. -/
def sampleDomains : List ServerDomain :=
  [⟨1, "v2_server_vless", 4, "domain1.com", true, 1, 100⟩,
   ⟨2, "v2_server_vless", 4, "domain2.com", false, 2, 0⟩,
   ⟨3, "v2_server_vless", 4, "domain3.com", false, 3, 50⟩]

/-- Concrete record fixture: one vless record currently on
`domain1.com`, port 8080. -/
def sampleRec : ServerRow :=
  ⟨"v2_server_vless", 4, "8080", 8080, "domain1.com", 0, ""⟩

/-- Concrete two-store fixture. -/
def sampleState : DBState := ⟨[sampleRec], sampleDomains⟩

/-- Concrete rotation environment: port range `[1000, 1001]`, 24-hour
interval, draws always landing on the range's second value. -/
def sampleEnv : RotateEnv := ⟨1000, 1001, 24, fun _ => 1⟩

/-- The state `updateServer` commits from `sampleState` at time 20000
with `sampleEnv` and no faults: port 1001, host `domain2.com`,
`domain1.com` released, `domain2.com` claimed. -/
def sampleRotated : DBState :=
  ⟨[⟨"v2_server_vless", 4, "1001", 1001, "domain2.com", 106400, ""⟩],
   [⟨1, "v2_server_vless", 4, "domain1.com", false, 1, 100⟩,
    ⟨2, "v2_server_vless", 4, "domain2.com", true, 2, 20000⟩,
    ⟨3, "v2_server_vless", 4, "domain3.com", false, 3, 50⟩]⟩

/-- Concrete sweep fixture: one due record (its `next_update_time` 0
means "due now") with an empty domain pool, so every rotation attempt
fails with the no-available-domain error. -/
def dueFailState : DBState :=
  ⟨[⟨"v2_server_vless", 4, "8080", 8080, "", 0, ""⟩], []⟩

/-- Non-decreasing `last_used_time` between two rows. -/
def leTime (a b : ServerDomain) : Prop := a.lastUsedTime ≤ b.lastUsedTime

lemma mem_insertByTime {a d : ServerDomain} {l : List ServerDomain} :
    a ∈ insertByTime d l ↔ a = d ∨ a ∈ l := by
  induction l with
  | nil => simp [insertByTime]
  | cons e es ih =>
    by_cases hd : d.lastUsedTime ≤ e.lastUsedTime
    · simp only [insertByTime, if_pos hd, List.mem_cons]
    · simp only [insertByTime, if_neg hd, List.mem_cons, ih]
      tauto

lemma pairwise_insertByTime {d : ServerDomain} {l : List ServerDomain}
    (h : l.Pairwise leTime) : (insertByTime d l).Pairwise leTime := by
  induction l with
  | nil => simp [insertByTime, leTime]
  | cons e es ih =>
    rcases List.pairwise_cons.mp h with ⟨he, hes⟩
    by_cases hd : d.lastUsedTime ≤ e.lastUsedTime
    · simp only [insertByTime, if_pos hd]
      refine List.pairwise_cons.mpr ⟨?_, List.pairwise_cons.mpr ⟨he, hes⟩⟩
      intro x hx
      rcases List.mem_cons.mp hx with rfl | hx
      · exact hd
      · exact le_trans hd (he x hx)
    · simp only [insertByTime, if_neg hd]
      refine List.pairwise_cons.mpr ⟨?_, ih hes⟩
      intro x hx
      rcases mem_insertByTime.mp hx with rfl | hx
      · exact le_of_not_le hd
      · exact he x hx

lemma mem_sortByTime {a : ServerDomain} {l : List ServerDomain} :
    a ∈ sortByTime l ↔ a ∈ l := by
  induction l with
  | nil => simp [sortByTime]
  | cons e es ih =>
    simp only [sortByTime, mem_insertByTime, List.mem_cons, ih]

lemma pairwise_sortByTime (l : List ServerDomain) :
    (sortByTime l).Pairwise leTime := by
  induction l with
  | nil => simp [sortByTime]
  | cons e es ih => exact pairwise_insertByTime ih

lemma filter_insertByTime (d : ServerDomain) (l : List ServerDomain) (t : Int) :
    (insertByTime d l).filter (fun e => decide (e.lastUsedTime = t)) =
      if d.lastUsedTime = t then
        d :: l.filter (fun e => decide (e.lastUsedTime = t))
      else l.filter (fun e => decide (e.lastUsedTime = t)) := by
  induction l with
  | nil => by_cases h : d.lastUsedTime = t <;> simp [insertByTime, h]
  | cons e es ih =>
    by_cases hd : d.lastUsedTime ≤ e.lastUsedTime
    · simp only [insertByTime, if_pos hd]
      by_cases h1 : d.lastUsedTime = t <;> simp [List.filter_cons, h1]
    · simp only [insertByTime, if_neg hd]
      by_cases h2 : e.lastUsedTime = t
      · have h1 : ¬ d.lastUsedTime = t := by omega
        simp [List.filter_cons, h2, ih, h1]
      · simp [List.filter_cons, h2, ih]

lemma filter_sortByTime (l : List ServerDomain) (t : Int) :
    (sortByTime l).filter (fun e => decide (e.lastUsedTime = t)) =
      l.filter (fun e => decide (e.lastUsedTime = t)) := by
  induction l with
  | nil => simp [sortByTime]
  | cons e es ih =>
    simp only [sortByTime, filter_insertByTime, List.filter_cons]
    by_cases h : e.lastUsedTime = t <;> simp [h, ih]

lemma filter_map_of_pointwise {α : Type} {f : α → α} {p : α → Bool}
    {l : List α} (hp : ∀ a ∈ l, p (f a) = p a)
    (hf : ∀ a ∈ l, p a = true → f a = a) :
    (l.map f).filter p = l.filter p := by
  induction l with
  | nil => simp
  | cons a as ih =>
    have hpa := hp a (List.mem_cons_self a as)
    have ih' := ih (fun x hx => hp x (List.mem_cons_of_mem a hx))
      (fun x hx => hf x (List.mem_cons_of_mem a hx))
    cases hb : p a with
    | true =>
      simp [List.filter_cons, hpa, hb, hf a (List.mem_cons_self a as) hb, ih']
    | false => simp [List.filter_cons, hpa, hb, ih']

lemma forall2_map_self {α : Type} {R : α → α → Prop} {f : α → α}
    {l : List α} (h : ∀ a ∈ l, R a (f a)) : List.Forall₂ R l (l.map f) := by
  induction l with
  | nil => simp
  | cons a as ih =>
    exact List.Forall₂.cons (h a (List.mem_cons_self a as))
      (ih fun x hx => h x (List.mem_cons_of_mem a hx))

lemma find_map_of_pres {α : Type} {g : α → α} {p : α → Bool}
    {l : List α} (hg : ∀ a, p (g a) = p a) :
    (l.map g).find? p = (l.find? p).map g := by
  induction l with
  | nil => simp
  | cons a as ih =>
    cases hb : p a with
    | true => simp [List.find?_cons, hg, hb]
    | false => simp [List.find?_cons, hg, hb, ih]

lemma eligibleFilter_releaseRow (table : String) (sid : Nat) (now : Int)
    (host : String) (hh : ¬ host = "") (d : ServerDomain) :
    eligibleFilter table sid now host (releaseRow table sid host d) =
      eligibleFilter table sid now host d := by
  unfold releaseRow
  split
  · next hc => simp [eligibleFilter, hc.2.2, hh]
  · rfl

lemma releaseRow_of_eligible {table : String} {sid : Nat} {now : Int}
    {host : String} (hh : ¬ host = "") {d : ServerDomain}
    (ha : eligibleFilter table sid now host d = true) :
    releaseRow table sid host d = d := by
  unfold releaseRow
  split
  · next hm =>
    exfalso
    simp only [eligibleFilter, decide_eq_true_eq] at ha
    rcases ha.2.2.2.2 with he | hne
    · exact hh he
    · exact hne hm.2.2
  · rfl

/-- The release write never changes the eligible-domain query's result:
released rows carry the excluded `host` domain, so the query filters
them out either way. -/
lemma eligibleList_released (l : List ServerDomain) (table : String) (sid : Nat)
    (now : Int) (host : String) :
    eligibleList (releasedDomains l table sid host) table sid now host =
      eligibleList l table sid now host := by
  unfold releasedDomains
  split
  · next hc =>
    unfold eligibleList
    congr 1
    apply filter_map_of_pointwise
    · intro a _
      exact eligibleFilter_releaseRow table sid now host hc.1 a
    · intro a _ ha
      exact releaseRow_of_eligible hc.1 ha
  · rfl

/-- Forward characterization of a committed rotation: the record was
found, a distinct port was drawn, the eligible list was non-empty, the
head was selected, and the result state is exactly the candidate
transaction state. -/
lemma updateServer_ok_spec {env : RotateEnv} {f : Faults} {table : String}
    {id : Nat} {now : Int} {useOrder : Bool} {s s' : DBState}
    (h : updateServer env f table id now useOrder s = .ok s') :
    ∃ r p sel rest,
      findRec s table id = some r ∧
      pickPort env r.serverPort = some p ∧
      eligibleList s.domains table id now r.host = sel :: rest ∧
      s' = { servers := s.servers.map (recordUpdateRow table id p sel.domain
                (now + env.updateIntervalHours * 3600)),
             domains := rotatedDomains (releasedDomains s.domains table id r.host)
                table id sel.id now useOrder } := by
  unfold updateServer at h
  split at h
  · exact absurd h (by simp)
  split at h
  · exact absurd h (by simp)
  next cur hcur =>
  split at h
  · exact absurd h (by simp)
  split at h
  · exact absurd h (by simp)
  next p hp =>
  split at h
  · exact absurd h (by simp)
  split at h
  · exact absurd h (by simp)
  next sel rest hel =>
  split at h
  · exact absurd h (by simp)
  split at h
  · exact absurd h (by simp)
  split at h
  · exact absurd h (by simp)
  split at h
  · exact absurd h (by simp)
  rw [eligibleList_released] at hel
  injection h with h
  exact ⟨cur, p, sel, rest, hcur, hp, hel, h.symm⟩

/-- C1: Rotation atomicity — whenever `updateServer` returns an error
(missing record, no distinct port, empty eligible list, or any injected
store read/write/commit failure), the caller observes the two stores
exactly as they were before the call: the whole `DBState` (hence every
record's `host`, `port`, `server_port`, `next_update_time` and every
Domain Entry's `in_use`, `last_used_time`, `order`) is unchanged. -/
theorem rotate_atomicity (env : RotateEnv) (f : Faults) (table : String)
    (id : Nat) (now : Int) (useOrder : Bool) (s : DBState) (e : RotErr)
    (h : (runUpdateServer env f table id now useOrder s).2 = some e) :
    (runUpdateServer env f table id now useOrder s).1 = s := by
  unfold runUpdateServer runOp at h ⊢
  cases hres : updateServer env f table id now useOrder s with
  | ok s0 => rw [hres] at h; exact absurd h (by simp)
  | error e0 => rfl

theorem rotate_atomicity_witness :
    (runUpdateServer ⟨1000, 1001, 24, fun _ => 0⟩ noFaults "v2_server_vless"
        1 0 false ⟨[], []⟩).1 = ⟨[], []⟩ :=
  rotate_atomicity ⟨1000, 1001, 24, fun _ => 0⟩ noFaults "v2_server_vless"
    1 0 false ⟨[], []⟩ .recordReadFailed (by decide)

/-- C5 counterexample: `NoDistinctPort` is reachable with
`minPort < maxPort` — with range `[1000, 1001]`, excluded value 1000 and
a draw sequence that lands on 1000 every time, all 100 draws are
rejected and the allocation fails, refuting "only reachable when
`maxPort == minPort`" / "min < max guarantees success for every draw
sequence". -/
theorem pickPort_fails_below_max_counterexample :
    (1000 : Int) < 1001 ∧
      pickPort ⟨1000, 1001, 24, fun _ => 0⟩ 1000 = none :=
  ⟨by norm_num, by decide⟩

/-- C5 (amended): a successfully returned port differs from the excluded
value and (when `minPort ≤ maxPort`) lies in `[minPort, maxPort]`, using
at most 100 draws; the `NoDistinctPort` failure occurs iff every one of
the 100 draws equals the excluded value — guaranteed when
`minPort = maxPort = exclude`, but also reachable for `minPort < maxPort`
under a draw sequence that always hits the excluded value. -/
theorem pickPort_spec (minP maxP exclude hrs : Int) (draws : Nat → Nat) :
    (∀ p, pickPort ⟨minP, maxP, hrs, draws⟩ exclude = some p →
       p ≠ exclude ∧ (minP ≤ maxP → minP ≤ p ∧ p ≤ maxP)) ∧
    (pickPort ⟨minP, maxP, hrs, draws⟩ exclude = none ↔
       ∀ i < 100, drawVal ⟨minP, maxP, hrs, draws⟩ i = exclude) := by
  constructor
  · intro p hp
    rcases List.exists_of_findSome?_eq_some hp with ⟨i, _, hi⟩
    simp only at hi
    split at hi
    · next hne =>
      injection hi with hi
      subst hi
      refine ⟨hne, fun hle => ?_⟩
      have hn : ((maxP - minP + 1).toNat : Int) = maxP - minP + 1 :=
        Int.toNat_of_nonneg (by omega)
      have hlt : draws i % (maxP - minP + 1).toNat < (maxP - minP + 1).toNat :=
        Nat.mod_lt _ (by omega)
      unfold drawVal
      simp only [Int.ofNat_eq_coe]
      omega
    · exact absurd hi (by simp)
  · unfold pickPort
    rw [List.findSome?_eq_none_iff]
    constructor
    · intro h i hi
      have := h i (List.mem_range.mpr hi)
      simp only at this
      split at this
      · exact absurd this (by simp)
      · next hne => exact not_not.mp hne
    · intro h x hx
      have := h x (List.mem_range.mp hx)
      simp [this]

theorem pickPort_spec_witness :
    (1001 : Int) ≠ 1000 ∧ ((1000 : Int) ≤ 1001 → (1000 : Int) ≤ 1001 ∧ (1001 : Int) ≤ 1001) :=
  (pickPort_spec 1000 1001 1000 24 (fun _ => 1)).1 1001 (by decide)

lemma recordUpdateRow_pres_key (table : String) (id : Nat) (p : Int)
    (nh : String) (nd : Int) (r : ServerRow) :
    (decide ((recordUpdateRow table id p nh nd r).table = table ∧
        (recordUpdateRow table id p nh nd r).id = id)) =
      decide (r.table = table ∧ r.id = id) := by
  unfold recordUpdateRow
  split <;> simp_all

lemma findRecL_updated {l : List ServerRow} {table : String} {id : Nat}
    {r : ServerRow}
    (h : l.find? (fun x => decide (x.table = table ∧ x.id = id)) = some r)
    (p : Int) (nh : String) (nd : Int) :
    (l.map (recordUpdateRow table id p nh nd)).find?
        (fun x => decide (x.table = table ∧ x.id = id)) =
      some { r with port := toString p, serverPort := p, host := nh,
                    nextUpdateTime := nd } := by
  rw [find_map_of_pres (recordUpdateRow_pres_key table id p nh nd), h]
  have hr := List.find?_some h
  simp only [decide_eq_true_eq] at hr
  unfold recordUpdateRow
  simp [hr.1, hr.2]

/-- C3: Eligible-list characterization — membership in the eligible
query's result is exactly owner match, `inUse = false`, cooldown clear
(`lastUsedTime = 0` or `now - lastUsedTime ≥ 10800`) and exclusion of
the current host; the result is sorted non-decreasing by
`lastUsedTime` (never-used rows first, as 0 is minimal among the
non-negative reachable timestamps); ties keep the insertion order of
the row list (stability: restricting the output to one timestamp gives
the input's filtered rows unchanged); and a committed rotation's new
host is the head of this list. -/
theorem eligible_list_characterization (l : List ServerDomain) (table : String)
    (sid : Nat) (now : Int) (host : String) :
    (∀ d, d ∈ eligibleList l table sid now host ↔
       (d ∈ l ∧ d.serverTable = table ∧ d.serverId = sid ∧ d.inUse = false ∧
        (d.lastUsedTime = 0 ∨ now - d.lastUsedTime ≥ 10800) ∧
        (host = "" ∨ ¬ d.domain = host))) ∧
    (eligibleList l table sid now host).Pairwise leTime ∧
    ((∀ d ∈ l, 0 ≤ d.lastUsedTime) →
      ∀ l₁ d l₂, eligibleList l table sid now host = l₁ ++ d :: l₂ →
        d.lastUsedTime = 0 → ∀ e ∈ l₁, e.lastUsedTime = 0) ∧
    (∀ t, (eligibleList l table sid now host).filter
        (fun e => decide (e.lastUsedTime = t)) =
      (l.filter (eligibleFilter table sid now host)).filter
        (fun e => decide (e.lastUsedTime = t))) ∧
    (∀ (env : RotateEnv) (f : Faults) (useOrder : Bool) (s s' : DBState)
        (r : ServerRow) (id : Nat),
      updateServer env f table id now useOrder s = .ok s' →
      findRec s table id = some r →
      (findRec s' table id).map (fun x => x.host) =
        ((eligibleList s.domains table id now r.host).head?).map
          (fun d => d.domain)) := by
  refine ⟨?_, ?_, ?_, ?_, ?_⟩
  · intro d
    unfold eligibleList
    rw [mem_sortByTime, List.mem_filter]
    unfold eligibleFilter
    simp only [decide_eq_true_eq]
    constructor
    · rintro ⟨hm, h1, h2, h3, h4, h5⟩
      exact ⟨hm, h1, h2, h3, by omega, h5⟩
    · rintro ⟨hm, h1, h2, h3, h4, h5⟩
      exact ⟨hm, h1, h2, h3, by omega, h5⟩
  · exact pairwise_sortByTime _
  · intro hnn l₁ d l₂ heq hd0 e he
    have hmem : e ∈ eligibleList l table sid now host := by
      rw [heq]; exact List.mem_append_left _ he
    have hel : e ∈ l := by
      have := (mem_sortByTime (l := l.filter (eligibleFilter table sid now host))).mp hmem
      exact (List.mem_filter.mp this).1
    have hpw := pairwise_sortByTime (l.filter (eligibleFilter table sid now host))
    rw [show sortByTime (l.filter (eligibleFilter table sid now host)) =
        eligibleList l table sid now host from rfl, heq] at hpw
    rcases List.pairwise_append.mp hpw with ⟨_, _, hcross⟩
    have hle : leTime e d := hcross e he d (List.mem_cons_self d l₂)
    have := hnn e hel
    unfold leTime at hle
    omega
  · intro t
    unfold eligibleList
    exact filter_sortByTime _ t
  · intro env f useOrder s s' r id hok hr
    rcases updateServer_ok_spec hok with ⟨r', p, sel, rest, hr', hp, hel, hs'⟩
    rw [hr] at hr'
    injection hr' with hr'
    subst hr'
    subst hs'
    unfold findRec
    simp only
    rw [findRecL_updated hr p sel.domain (now + env.updateIntervalHours * 3600)]
    rw [hel]
    rfl

lemma hostRowExists_iff {l : List ServerDomain} {table : String} {sid : Nat}
    {host : String} :
    hostRowExists l table sid host = true ↔
      ∃ d ∈ l, d.serverTable = table ∧ d.serverId = sid ∧ d.domain = host := by
  unfold hostRowExists
  simp [List.any_eq_true]

lemma rot_row_rel (table : String) (sid : Nat) (host : String) (selId : Nat)
    (now newOrd : Int) (rel uo : Bool) (d d' : ServerDomain)
    (hno : rel = false → ¬ (¬ host = "" ∧ d.serverTable = table ∧
      d.serverId = sid ∧ d.domain = host))
    (hd' : d' = (if uo then
        bumpRow selId newOrd (claimRow selId now
          (if rel then releaseRow table sid host d else d))
      else claimRow selId now (if rel then releaseRow table sid host d else d))) :
    d'.id = d.id ∧ d'.domain = d.domain ∧
    d'.serverTable = d.serverTable ∧ d'.serverId = d.serverId ∧
    (d.id = selId → d'.inUse = true ∧ d'.lastUsedTime = now) ∧
    (¬ d.id = selId →
      d'.lastUsedTime = d.lastUsedTime ∧ d'.order = d.order ∧
      (¬ host = "" → d.serverTable = table → d.serverId = sid →
        d.domain = host → d'.inUse = false) ∧
      (¬ (d.serverTable = table ∧ d.serverId = sid ∧ d.domain = host) →
        d'.inUse = d.inUse)) := by
  subst hd'
  cases rel with
  | false =>
    have hno' := hno rfl
    cases uo <;> by_cases hid : d.id = selId <;>
      simp [claimRow, bumpRow, hid] <;> tauto
  | true =>
    cases uo <;> by_cases hid : d.id = selId <;>
      by_cases hm : d.serverTable = table ∧ d.serverId = sid ∧ d.domain = host <;>
      simp [releaseRow, claimRow, bumpRow, hid, hm] <;> tauto

theorem eligible_list_characterization_witness :
    ((⟨2, "v2_server_vless", 4, "domain2.com", false, 2, 0⟩ : ServerDomain) ∈
      eligibleList sampleDomains "v2_server_vless" 4 20000 "domain1.com") ∧
    (∀ e ∈ ([] : List ServerDomain), e.lastUsedTime = 0) := by
  refine ⟨?_, ?_⟩
  · exact ((eligible_list_characterization sampleDomains "v2_server_vless" 4
      20000 "domain1.com").1 _).mpr (by decide)
  · exact (eligible_list_characterization sampleDomains "v2_server_vless" 4
      20000 "domain1.com").2.2.1 (by decide)
      [] ⟨2, "v2_server_vless", 4, "domain2.com", false, 2, 0⟩
      [⟨3, "v2_server_vless", 4, "domain3.com", false, 3, 50⟩]
      (by decide) (by decide)

/-- C2: Rotation success postcondition — on every committed
`updateServer` call, some port `p` distinct from the record's current
one was drawn and the head `sel` of the (non-empty) eligible list was
selected; the record's `port` (string) and `server_port` both become
`p`, `host` becomes `sel`'s domain, and `next_update_time` becomes
`now + updateIntervalHours*3600`; row-by-row over the domain store, the
selected entry gets `in_use = 1` and `last_used_time = now`, and every
other entry keeps its `last_used_time` and `order`; an entry matching
the old non-empty host gets `in_use = 0` (released, `last_used_time`
untouched) while entries not matching the old host keep their `in_use`.
No matching entry for the old host is required: the rotation proceeds
(and releases nothing) in that case. -/
theorem rotate_success_postcondition (env : RotateEnv) (f : Faults)
    (table : String) (id : Nat) (now : Int) (useOrder : Bool)
    (s s' : DBState) (r : ServerRow)
    (h : updateServer env f table id now useOrder s = .ok s')
    (hr : findRec s table id = some r) :
    ∃ p sel rest,
      pickPort env r.serverPort = some p ∧
      eligibleList s.domains table id now r.host = sel :: rest ∧
      findRec s' table id =
        some { r with port := toString p, serverPort := p, host := sel.domain,
                      nextUpdateTime := now + env.updateIntervalHours * 3600 } ∧
      List.Forall₂ (fun d d' =>
        d'.id = d.id ∧ d'.domain = d.domain ∧
        d'.serverTable = d.serverTable ∧ d'.serverId = d.serverId ∧
        (d.id = sel.id → d'.inUse = true ∧ d'.lastUsedTime = now) ∧
        (¬ d.id = sel.id →
          d'.lastUsedTime = d.lastUsedTime ∧ d'.order = d.order ∧
          (¬ r.host = "" → d.serverTable = table → d.serverId = id →
            d.domain = r.host → d'.inUse = false) ∧
          (¬ (d.serverTable = table ∧ d.serverId = id ∧ d.domain = r.host) →
            d'.inUse = d.inUse)))
        s.domains s'.domains := by
  rcases updateServer_ok_spec h with ⟨r', p, sel, rest, hr', hp, hel, hs'⟩
  rw [hr] at hr'
  injection hr' with hr'
  subst hr'
  refine ⟨p, sel, rest, hp, hel, ?_, ?_⟩
  · subst hs'
    exact findRecL_updated hr p sel.domain _
  · subst hs'
    show List.Forall₂ _ s.domains
      (rotatedDomains (releasedDomains s.domains table id r.host)
        table id sel.id now useOrder)
    unfold releasedDomains
    split
    · next hrel =>
      unfold rotatedDomains
      cases useOrder with
      | true =>
        rw [if_pos rfl, List.map_map, List.map_map]
        apply forall2_map_self
        intro d _
        exact rot_row_rel table id r.host sel.id now _ true true d _
          (by intro h; exact absurd h (by simp)) rfl
      | false =>
        rw [if_neg (by simp), List.map_map]
        apply forall2_map_self
        intro d _
        exact rot_row_rel table id r.host sel.id now 0 true false d _
          (by intro h; exact absurd h (by simp)) rfl
    · next hrel =>
      have hnom : ∀ d ∈ s.domains,
          ¬ (¬ r.host = "" ∧ d.serverTable = table ∧ d.serverId = id ∧
             d.domain = r.host) := by
        rintro d hd ⟨hne, h1, h2, h3⟩
        exact hrel ⟨hne, hostRowExists_iff.mpr ⟨d, hd, h1, h2, h3⟩⟩
      unfold rotatedDomains
      cases useOrder with
      | true =>
        rw [if_pos rfl, List.map_map]
        apply forall2_map_self
        intro d hd
        exact rot_row_rel table id r.host sel.id now _ false true d _
          (fun _ => hnom d hd) rfl
      | false =>
        rw [if_neg (by simp)]
        apply forall2_map_self
        intro d hd
        exact rot_row_rel table id r.host sel.id now 0 false false d _
          (fun _ => hnom d hd) rfl

theorem rotate_success_postcondition_witness :
    ∃ p sel rest,
      pickPort sampleEnv sampleRec.serverPort = some p ∧
      eligibleList sampleState.domains "v2_server_vless" 4 20000 sampleRec.host
        = sel :: rest ∧
      findRec sampleRotated "v2_server_vless" 4 =
        some { sampleRec with port := toString p, serverPort := p,
                              host := sel.domain,
                              nextUpdateTime :=
                                20000 + sampleEnv.updateIntervalHours * 3600 } ∧
      List.Forall₂ (fun d d' =>
        d'.id = d.id ∧ d'.domain = d.domain ∧
        d'.serverTable = d.serverTable ∧ d'.serverId = d.serverId ∧
        (d.id = sel.id → d'.inUse = true ∧ d'.lastUsedTime = 20000) ∧
        (¬ d.id = sel.id →
          d'.lastUsedTime = d.lastUsedTime ∧ d'.order = d.order ∧
          (¬ sampleRec.host = "" → d.serverTable = "v2_server_vless" →
            d.serverId = 4 → d.domain = sampleRec.host → d'.inUse = false) ∧
          (¬ (d.serverTable = "v2_server_vless" ∧ d.serverId = 4 ∧
              d.domain = sampleRec.host) → d'.inUse = d.inUse)))
        sampleState.domains sampleRotated.domains :=
  rotate_success_postcondition sampleEnv noFaults "v2_server_vless" 4 20000
    false sampleState sampleRotated sampleRec rfl (by decide)

/-- C7: the add handler's own duplicate check is scoped to
`(server_table, server_id, domain)`, but the gorm tag on
`ServerDomain.Domain` (`uniqueIndex:unique_domain_per_server` on that
single column — a composite index would need the tag on all three key
fields) makes `domain` globally unique, so the insert itself is
rejected whenever the domain already exists under a *different* owner.
At this input the claim's "otherwise a new entry is created" fails:
adding `domain1.com` for the vmess record is refused with the store
error, not created, though the only existing `domain1.com` belongs to
the vless record; the store is left unchanged. -/
theorem addDomain_cross_owner_rejected :
    addDomain ⟨[], [⟨1, "v2_server_vless", 4, "domain1.com", false, 1, 0⟩]⟩
        "v2_server_vmess" 4 "domain1.com" = .error .createFailed ∧
    (runOp ⟨[], [⟨1, "v2_server_vless", 4, "domain1.com", false, 1, 0⟩]⟩
        (addDomain ⟨[], [⟨1, "v2_server_vless", 4, "domain1.com", false, 1, 0⟩]⟩
          "v2_server_vmess" 4 "domain1.com")).1 =
      ⟨[], [⟨1, "v2_server_vless", 4, "domain1.com", false, 1, 0⟩]⟩ :=
  ⟨rfl, rfl⟩

/-- C8: Domain remove — on an existing entry of a valid table, the
handler fails with the in-use error when `in_use = 1` and with the
current-host error when the owning record's host equals the entry's
domain, leaving the store unchanged in both cases; otherwise it deletes
exactly the rows with that `(id, server_table, server_id)`. -/
theorem delete_domain_spec (s : DBState) (table : String) (id domainId : Nat)
    (d : ServerDomain)
    (hv : table ∈ validTables) (hid : ¬ id = 0) (hdid : ¬ domainId = 0)
    (hfind : s.domains.find? (fun e =>
      decide (e.id = domainId ∧ e.serverTable = table ∧ e.serverId = id)) = some d) :
    (d.inUse = true →
      runOp s (deleteDomain s table id domainId) = (s, some .inUse)) ∧
    (∀ r, d.inUse = false → findRec s table id = some r → r.host = d.domain →
      runOp s (deleteDomain s table id domainId) = (s, some .isCurrentHost)) ∧
    (d.inUse = false →
      (∀ r, findRec s table id = some r → ¬ r.host = d.domain) →
      runOp s (deleteDomain s table id domainId) =
        ({ s with domains := s.domains.filter fun e =>
            decide (¬ (e.id = domainId ∧ e.serverTable = table ∧
              e.serverId = id)) }, none)) := by
  have hval : ¬ (¬ (table ∈ validTables) ∨ id = 0 ∨ domainId = 0) := by
    rintro (h | h | h)
    exacts [h hv, hid h, hdid h]
  refine ⟨?_, ?_, ?_⟩
  · intro hin
    unfold deleteDomain runOp
    rw [if_neg hval, hfind]
    simp [hin]
  · intro r hin hr hhost
    unfold deleteDomain runOp
    rw [if_neg hval, hfind]
    simp only [hin, Bool.false_eq_true, if_neg, ite_false]
    rw [hr]
    simp [hhost]
  · intro hin hnr
    unfold deleteDomain runOp
    rw [if_neg hval, hfind]
    simp only [hin, Bool.false_eq_true, if_neg, ite_false]
    cases hfr : findRec s table id with
    | some r => simp [hnr r hfr]
    | none => simp

theorem delete_domain_spec_witness :
    runOp sampleState (deleteDomain sampleState "v2_server_vless" 4 1) =
      (sampleState, some .inUse) :=
  (delete_domain_spec sampleState "v2_server_vless" 4 1
    ⟨1, "v2_server_vless", 4, "domain1.com", true, 1, 100⟩
    (by decide) (by decide) (by decide) (by decide)).1 rfl

/-- C10: a successful `/set-interval` request with hours `h > 0` returns
the new global interval and sets `next_update_time = now + h*3600` on
every record of the three kind tables, discarding whatever due time
each record had before (the new value does not depend on the old one,
and no record stays due since `now < now + h*3600`); the domain store
is untouched. -/
theorem set_interval_rewrites_all (s : DBState) (hrs now : Int) (h : 0 < hrs) :
    ∃ s', setIntervalHandler s hrs now = some (hrs, s') ∧
      s'.domains = s.domains ∧
      List.Forall₂ (fun r r' =>
        (r.table ∈ validTables →
          r' = { r with nextUpdateTime := now + hrs * 3600 } ∧
          now < r'.nextUpdateTime) ∧
        (¬ r.table ∈ validTables → r' = r)) s.servers s'.servers := by
  unfold setIntervalHandler
  rw [if_neg (by omega)]
  refine ⟨_, rfl, rfl, ?_⟩
  apply forall2_map_self
  intro r _
  constructor
  · intro hm
    rw [if_pos hm]
    refine ⟨rfl, ?_⟩
    show now < now + hrs * 3600
    omega
  · intro hm
    rw [if_neg hm]

/-- C9: the claimed startup reset never happens — line 602's
condition-less `db.Model(&ServerDomain{}).Updates` is rejected by GORM
v2's Block Global Updates guard (`ErrMissingWhereClause`) and only
logged, so `initUsedResources` merely marks the current hosts while
every other Domain Entry keeps its `in_use` and `last_used_time`.
Evaluated at the restart fixture: the current host `domain1.com` is
marked, but `domain2.com` keeps `last_used_time = 95000` instead of the
claimed 0, still fails the 3-hour cooldown at the restart time 100000,
and the record's eligible list right after the restart is empty — the
cooldown survives the restart, contradicting "every domain that is not
some record's current host is immediately eligible for reuse". -/
theorem init_reset_blocked_cooldown_survives :
    (initUsedResources restartState 100000).domains =
      [⟨1, "v2_server_vless", 4, "domain1.com", true, 1, 100000⟩,
       ⟨2, "v2_server_vless", 4, "domain2.com", false, 2, 95000⟩] ∧
    cooldownOK 100000
      ⟨2, "v2_server_vless", 4, "domain2.com", false, 2, 95000⟩ = false ∧
    eligibleList (initUsedResources restartState 100000).domains
      "v2_server_vless" 4 100000 "domain1.com" = [] :=
  ⟨rfl, rfl, rfl⟩

lemma mem_eligibleList {l : List ServerDomain} {table : String} {sid : Nat}
    {now : Int} {host : String} {d : ServerDomain} :
    d ∈ eligibleList l table sid now host ↔
      d ∈ l ∧ eligibleFilter table sid now host d = true := by
  unfold eligibleList
  rw [mem_sortByTime, List.mem_filter]

lemma filter_of_map {α β : Type} (f : α → β) (p : β → Bool) (l : List α) :
    (l.map f).filter p = (l.filter (fun a => p (f a))).map f := by
  induction l with
  | nil => rfl
  | cons a as ih => cases hb : p (f a) <;> simp [List.filter_cons, hb, ih]

lemma filter_id_eq_single {l : List ServerDomain}
    (h : (l.map (fun d => d.id)).Nodup) {sel : ServerDomain} (hm : sel ∈ l) :
    l.filter (fun d => decide (d.id = sel.id)) = [sel] := by
  induction l with
  | nil => cases hm
  | cons a as ih =>
    rw [List.map_cons, List.nodup_cons] at h
    rcases List.mem_cons.mp hm with rfl | hm'
    · rw [List.filter_cons]
      have hnil : as.filter (fun d => decide (d.id = sel.id)) = [] := by
        rw [List.filter_eq_nil_iff]
        intro b hb
        simp only [decide_eq_true_eq]
        intro hbid
        refine h.1 ?_
        rw [← hbid]
        exact List.mem_map_of_mem (fun d => d.id) hb
      simp [hnil]
    · have hne : ¬ a.id = sel.id := by
        intro he
        refine h.1 ?_
        rw [he]
        exact List.mem_map_of_mem (fun d => d.id) hm'
      rw [List.filter_cons]
      simp [hne, ih h.2 hm']

lemma releaseRow_keys (t : String) (sid : Nat) (h : String) (d : ServerDomain) :
    (releaseRow t sid h d).serverTable = d.serverTable ∧
    (releaseRow t sid h d).serverId = d.serverId ∧
    (releaseRow t sid h d).domain = d.domain ∧
    (releaseRow t sid h d).id = d.id := by
  unfold releaseRow
  split <;> exact ⟨rfl, rfl, rfl, rfl⟩

lemma claimRow_keys (selId : Nat) (now : Int) (d : ServerDomain) :
    (claimRow selId now d).serverTable = d.serverTable ∧
    (claimRow selId now d).serverId = d.serverId ∧
    (claimRow selId now d).domain = d.domain ∧
    (claimRow selId now d).id = d.id := by
  unfold claimRow
  split <;> exact ⟨rfl, rfl, rfl, rfl⟩

lemma bumpRow_keys (selId : Nat) (o : Int) (d : ServerDomain) :
    (bumpRow selId o d).serverTable = d.serverTable ∧
    (bumpRow selId o d).serverId = d.serverId ∧
    (bumpRow selId o d).domain = d.domain ∧
    (bumpRow selId o d).id = d.id ∧
    (bumpRow selId o d).inUse = d.inUse := by
  unfold bumpRow
  split <;> exact ⟨rfl, rfl, rfl, rfl, rfl⟩

lemma claimRow_inUse (selId : Nat) (now : Int) (d : ServerDomain) :
    (claimRow selId now d).inUse = (if d.id = selId then true else d.inUse) := by
  unfold claimRow
  split <;> simp_all

lemma releaseRow_inUse (t : String) (sid : Nat) (h : String) (d : ServerDomain) :
    (releaseRow t sid h d).inUse =
      (if d.serverTable = t ∧ d.serverId = sid ∧ d.domain = h then false
       else d.inUse) := by
  unfold releaseRow
  split <;> simp_all

lemma inUse_rows_single (l : List ServerDomain) (table : String) (id : Nat)
    (host : String) (sel : ServerDomain) (now : Int) (useOrder : Bool)
    (hids : (l.map (fun d => d.id)).Nodup)
    (hdne : ∀ d ∈ l, ¬ d.domain = "")
    (hpre2 : ∀ d ∈ inUseRows l table id, d.domain = host)
    (hsel : sel ∈ l) (hselT : sel.serverTable = table)
    (hselI : sel.serverId = id) :
    ∃ selR : ServerDomain,
      inUseRows (rotatedDomains (releasedDomains l table id host)
        table id sel.id now useOrder) table id = [selR] ∧
      selR.domain = sel.domain := by
  have key : ∀ F : ServerDomain → ServerDomain,
      (∀ d, (F d).serverTable = d.serverTable ∧ (F d).serverId = d.serverId ∧
        (F d).domain = d.domain) →
      (∀ d ∈ l, d.serverTable = table → d.serverId = id →
        ((F d).inUse = true ↔ d.id = sel.id)) →
      ∃ selR, inUseRows (l.map F) table id = [selR] ∧
        selR.domain = sel.domain := by
    intro F hFk hFu
    unfold inUseRows
    rw [filter_of_map]
    have hcg : l.filter (fun d => decide ((F d).serverTable = table ∧
        (F d).serverId = id ∧ (F d).inUse = true)) =
        l.filter (fun d => decide (d.id = sel.id)) := by
      apply List.filter_congr
      intro d hd
      rcases hFk d with ⟨k1, k2, _⟩
      rw [Bool.eq_iff_iff]
      simp only [decide_eq_true_eq, k1, k2]
      constructor
      · rintro ⟨h1, h2, h3⟩
        exact (hFu d hd h1 h2).mp h3
      · intro hid
        have hde : d = sel := List.inj_on_of_nodup_map hids hd hsel hid
        refine ⟨hde ▸ hselT, hde ▸ hselI, ?_⟩
        exact (hFu d hd (hde ▸ hselT) (hde ▸ hselI)).mpr hid
    rw [hcg, filter_id_eq_single hids hsel]
    exact ⟨F sel, rfl, (hFk sel).2.2⟩
  have hFu1 : ∀ d ∈ l, d.serverTable = table → d.serverId = id →
      ((claimRow sel.id now (releaseRow table id host d)).inUse = true ↔
        d.id = sel.id) := by
    intro d hd hT hI
    rw [claimRow_inUse, (releaseRow_keys table id host d).2.2.2]
    constructor
    · intro h3
      by_cases hid : d.id = sel.id
      · exact hid
      · rw [if_neg hid, releaseRow_inUse] at h3
        by_cases hm : d.serverTable = table ∧ d.serverId = id ∧ d.domain = host
        · rw [if_pos hm] at h3
          exact absurd h3 (by simp)
        · rw [if_neg hm] at h3
          have hdm : d.domain = host :=
            hpre2 d (List.mem_filter.mpr ⟨hd, by simp [hT, hI, h3]⟩)
          exact absurd ⟨hT, hI, hdm⟩ hm
    · intro hid
      rw [if_pos hid]
  have hFu2 : ¬ (¬ host = "" ∧ hostRowExists l table id host = true) →
      ∀ d ∈ l, d.serverTable = table → d.serverId = id →
      ((claimRow sel.id now d).inUse = true ↔ d.id = sel.id) := by
    intro hrel d hd hT hI
    rw [claimRow_inUse]
    constructor
    · intro h3
      by_cases hid : d.id = sel.id
      · exact hid
      · rw [if_neg hid] at h3
        have hdm : d.domain = host :=
          hpre2 d (List.mem_filter.mpr ⟨hd, by simp [hT, hI, h3]⟩)
        have hne : ¬ host = "" := by
          rw [← hdm]
          exact hdne d hd
        exact absurd ⟨hne, hostRowExists_iff.mpr ⟨d, hd, hT, hI, hdm⟩⟩ hrel
    · intro hid
      rw [if_pos hid]
  have hkeys1 : ∀ d : ServerDomain,
      ((claimRow sel.id now (releaseRow table id host d)).serverTable =
        d.serverTable) ∧
      ((claimRow sel.id now (releaseRow table id host d)).serverId =
        d.serverId) ∧
      ((claimRow sel.id now (releaseRow table id host d)).domain = d.domain) := by
    intro d
    refine ⟨?_, ?_, ?_⟩
    · rw [(claimRow_keys _ _ _).1, (releaseRow_keys _ _ _ _).1]
    · rw [(claimRow_keys _ _ _).2.1, (releaseRow_keys _ _ _ _).2.1]
    · rw [(claimRow_keys _ _ _).2.2.1, (releaseRow_keys _ _ _ _).2.2.1]
  unfold rotatedDomains releasedDomains
  cases useOrder with
  | true =>
    rw [if_pos rfl]
    by_cases hrel : ¬ host = "" ∧ hostRowExists l table id host = true
    · rw [if_pos hrel, List.map_map, List.map_map]
      apply key
      · intro d
        refine ⟨?_, ?_, ?_⟩ <;> simp only [Function.comp]
        · rw [(bumpRow_keys _ _ _).1, (hkeys1 d).1]
        · rw [(bumpRow_keys _ _ _).2.1, (hkeys1 d).2.1]
        · rw [(bumpRow_keys _ _ _).2.2.1, (hkeys1 d).2.2]
      · intro d hd hT hI
        simp only [Function.comp]
        rw [(bumpRow_keys _ _ _).2.2.2.2]
        exact hFu1 d hd hT hI
    · rw [if_neg hrel, List.map_map]
      apply key
      · intro d
        refine ⟨?_, ?_, ?_⟩ <;> simp only [Function.comp]
        · rw [(bumpRow_keys _ _ _).1, (claimRow_keys _ _ _).1]
        · rw [(bumpRow_keys _ _ _).2.1, (claimRow_keys _ _ _).2.1]
        · rw [(bumpRow_keys _ _ _).2.2.1, (claimRow_keys _ _ _).2.2.1]
      · intro d hd hT hI
        simp only [Function.comp]
        rw [(bumpRow_keys _ _ _).2.2.2.2]
        exact hFu2 hrel d hd hT hI
  | false =>
    rw [if_neg (by simp)]
    by_cases hrel : ¬ host = "" ∧ hostRowExists l table id host = true
    · rw [if_pos hrel, List.map_map]
      apply key
      · intro d
        simp only [Function.comp]
        exact hkeys1 d
      · intro d hd hT hI
        simp only [Function.comp]
        exact hFu1 d hd hT hI
    · rw [if_neg hrel]
      apply key
      · intro d
        exact ⟨(claimRow_keys _ _ _).1, (claimRow_keys _ _ _).2.1,
          (claimRow_keys _ _ _).2.2.1⟩
      · intro d hd hT hI
        exact hFu2 hrel d hd hT hI

/-- C6: Two-store agreement — if before a rotation at most one Domain
Entry of the record's `(table, id)` owner is in use and every in-use
entry carries the record's current host (and the pool's reachable-state
invariants hold: distinct entry ids, no empty domain), then after the
rotation commits exactly one entry of that owner is in use and its
domain is the record's new host: the old host's entries were released
and the selected entry was claimed in the same transaction. -/
theorem rotate_two_store_agreement (env : RotateEnv) (f : Faults)
    (table : String) (id : Nat) (now : Int) (useOrder : Bool)
    (s s' : DBState) (r : ServerRow)
    (hids : (s.domains.map (fun d => d.id)).Nodup)
    (hdne : ∀ d ∈ s.domains, ¬ d.domain = "")
    (hr : findRec s table id = some r)
    (hpre1 : (inUseRows s.domains table id).length ≤ 1)
    (hpre2 : ∀ d ∈ inUseRows s.domains table id, d.domain = r.host)
    (hok : updateServer env f table id now useOrder s = .ok s') :
    ∃ r', findRec s' table id = some r' ∧
      (inUseRows s'.domains table id).length = 1 ∧
      ∀ d ∈ inUseRows s'.domains table id, d.domain = r'.host := by
  rcases updateServer_ok_spec hok with ⟨r0, p, sel, rest, hr0, hp, hel, hs'⟩
  rw [hr] at hr0
  injection hr0 with hr0
  subst hr0
  have hselmem : sel ∈ eligibleList s.domains table id now r.host := by
    rw [hel]
    exact List.mem_cons_self _ _
  rcases mem_eligibleList.mp hselmem with ⟨hsell, hself⟩
  simp only [eligibleFilter, decide_eq_true_eq] at hself
  obtain ⟨hT, hI, _, _, _⟩ := hself
  subst hs'
  rcases inUse_rows_single s.domains table id r.host sel now useOrder hids hdne
    hpre2 hsell hT hI with ⟨selR, hRows, hRd⟩
  refine ⟨_, findRecL_updated hr p sel.domain _, ?_, ?_⟩
  · show (inUseRows (rotatedDomains (releasedDomains s.domains table id r.host)
      table id sel.id now useOrder) table id).length = 1
    rw [hRows]
    rfl
  · intro d hd
    have hd2 : d ∈ inUseRows (rotatedDomains
        (releasedDomains s.domains table id r.host)
        table id sel.id now useOrder) table id := hd
    rw [hRows] at hd2
    rcases List.mem_singleton.mp hd2 with rfl
    exact hRd

theorem rotate_two_store_agreement_witness :
    ∃ r', findRec sampleRotated "v2_server_vless" 4 = some r' ∧
      (inUseRows sampleRotated.domains "v2_server_vless" 4).length = 1 ∧
      ∀ d ∈ inUseRows sampleRotated.domains "v2_server_vless" 4,
        d.domain = r'.host :=
  rotate_two_store_agreement sampleEnv noFaults "v2_server_vless" 4 20000 false
    sampleState sampleRotated sampleRec (by decide) (by decide) (by decide)
    (by decide) (by decide) rfl

theorem set_interval_rewrites_all_witness :
    ∃ s', setIntervalHandler sampleState 2 100 = some (2, s') ∧
      s'.domains = sampleState.domains ∧
      List.Forall₂ (fun r r' =>
        (r.table ∈ validTables →
          r' = { r with nextUpdateTime := 100 + 2 * 3600 } ∧
          (100 : Int) < r'.nextUpdateTime) ∧
        (¬ r.table ∈ validTables → r' = r)) sampleState.servers s'.servers :=
  set_interval_rewrites_all sampleState 2 100 (by decide)

lemma statusRow_keys (t : String) (i : Nat) (st : String) (r : ServerRow) :
    (statusRow t i st r).table = r.table ∧ (statusRow t i st r).id = r.id := by
  unfold statusRow
  split <;> exact ⟨rfl, rfl⟩

lemma failRow_keys (t : String) (i : Nat) (st : String) (nd : Int)
    (r : ServerRow) :
    (failRow t i st nd r).table = r.table ∧ (failRow t i st nd r).id = r.id := by
  unfold failRow
  split <;> exact ⟨rfl, rfl⟩

lemma recordUpdateRow_keys (t : String) (i : Nat) (p : Int) (nh : String)
    (nd : Int) (r : ServerRow) :
    (recordUpdateRow t i p nh nd r).table = r.table ∧
    (recordUpdateRow t i p nh nd r).id = r.id := by
  unfold recordUpdateRow
  split <;> exact ⟨rfl, rfl⟩

lemma findRec_map_untouched {l : List ServerRow} {g : ServerRow → ServerRow}
    (t : String) (i : Nat)
    (hg1 : ∀ x, (g x).table = x.table ∧ (g x).id = x.id)
    (hg2 : ∀ x, x.table = t → x.id = i → g x = x) :
    (l.map g).find? (fun x => decide (x.table = t ∧ x.id = i)) =
      l.find? (fun x => decide (x.table = t ∧ x.id = i)) := by
  rw [find_map_of_pres (fun x => by rw [(hg1 x).1, (hg1 x).2])]
  cases hfind : l.find? (fun x => decide (x.table = t ∧ x.id = i)) with
  | none => rfl
  | some x =>
    have hx := List.find?_some hfind
    simp only [decide_eq_true_eq] at hx
    simp [hg2 x hx.1 hx.2]

lemma findRec_writeLastStatus_self {s : DBState} {t : String} {i : Nat}
    {r : ServerRow} (h : findRec s t i = some r) (st' : String) :
    findRec (writeLastStatus s t i st') t i =
      some { r with lastUpdateStatus := st' } := by
  unfold findRec writeLastStatus
  simp only
  rw [find_map_of_pres
    (fun x => by rw [(statusRow_keys t i st' x).1, (statusRow_keys t i st' x).2])]
  unfold findRec at h
  rw [h]
  have hr := List.find?_some h
  simp only [decide_eq_true_eq] at hr
  unfold statusRow
  simp [hr.1, hr.2]

lemma findRec_writeFailStatus_self {s : DBState} {t : String} {i : Nat}
    {r : ServerRow} (h : findRec s t i = some r) (st' : String) (nd : Int) :
    findRec (writeFailStatus s t i st' nd) t i =
      some { r with lastUpdateStatus := st', nextUpdateTime := nd } := by
  unfold findRec writeFailStatus
  simp only
  rw [find_map_of_pres
    (fun x => by rw [(failRow_keys t i st' nd x).1, (failRow_keys t i st' nd x).2])]
  unfold findRec at h
  rw [h]
  have hr := List.find?_some h
  simp only [decide_eq_true_eq] at hr
  unfold failRow
  simp [hr.1, hr.2]

lemma findRec_writeLastStatus_other {s : DBState} {t' : String} {j : Nat}
    (t : String) (i : Nat) (st' : String) (hne : ¬ (t' = t ∧ j = i)) :
    findRec (writeLastStatus s t' j st') t i = findRec s t i := by
  unfold findRec writeLastStatus
  simp only
  apply findRec_map_untouched t i (fun x => statusRow_keys t' j st' x)
  intro x hxt hxi
  unfold statusRow
  rw [if_neg]
  rintro ⟨h1, h2⟩
  exact hne ⟨h1.symm.trans hxt, h2.symm.trans hxi⟩

lemma findRec_writeFailStatus_other {s : DBState} {t' : String} {j : Nat}
    (t : String) (i : Nat) (st' : String) (nd : Int)
    (hne : ¬ (t' = t ∧ j = i)) :
    findRec (writeFailStatus s t' j st' nd) t i = findRec s t i := by
  unfold findRec writeFailStatus
  simp only
  apply findRec_map_untouched t i (fun x => failRow_keys t' j st' nd x)
  intro x hxt hxi
  unfold failRow
  rw [if_neg]
  rintro ⟨h1, h2⟩
  exact hne ⟨h1.symm.trans hxt, h2.symm.trans hxi⟩

lemma findRec_updateServer_ok {env : RotateEnv} {f : Faults} {t' : String}
    {j : Nat} {now : Int} {uo : Bool} {s s0 : DBState}
    (h : updateServer env f t' j now uo s = .ok s0) (t : String) (i : Nat)
    (hne : ¬ (t' = t ∧ j = i)) :
    findRec s0 t i = findRec s t i := by
  rcases updateServer_ok_spec h with ⟨r, p, sel, rest, _, _, _, hs0⟩
  subst hs0
  unfold findRec
  simp only
  apply findRec_map_untouched t i (fun x => recordUpdateRow_keys t' j _ _ _ x)
  intro x hxt hxi
  unfold recordUpdateRow
  rw [if_neg]
  rintro ⟨h1, h2⟩
  exact hne ⟨h1.symm.trans hxt, h2.symm.trans hxi⟩

lemma keys_map_eq {l : List ServerRow} {g : ServerRow → ServerRow}
    (hg : ∀ x, (g x).table = x.table ∧ (g x).id = x.id) :
    (l.map g).map keyOf = l.map keyOf := by
  rw [List.map_map]
  apply List.map_congr_left
  intro x _
  simp only [Function.comp, keyOf]
  rw [(hg x).1, (hg x).2]

lemma keys_sweepOne (env : RotateEnv) (af : Nat → Faults) (t : String)
    (j : Nat) (now : Int) (s : DBState) :
    ((sweepOne env af t j now s).servers).map keyOf = s.servers.map keyOf := by
  unfold sweepOne
  have hup : ∀ (f : Faults) (s0 : DBState),
      updateServer env f t j now true s = .ok s0 →
      s0.servers.map keyOf = s.servers.map keyOf := by
    intro f s0 h
    rcases updateServer_ok_spec h with ⟨_, _, _, _, _, _, _, hs0⟩
    subst hs0
    exact keys_map_eq (fun x => recordUpdateRow_keys t j _ _ _ x)
  cases h0 : updateServer env (af 0) t j now true s with
  | ok s0 =>
    unfold writeLastStatus
    simp only
    rw [keys_map_eq (fun x => statusRow_keys t j _ x), hup (af 0) s0 h0]
  | error e0 =>
    cases h1 : updateServer env (af 1) t j now true s with
    | ok s1 =>
      unfold writeLastStatus
      simp only
      rw [keys_map_eq (fun x => statusRow_keys t j _ x), hup (af 1) s1 h1]
    | error e1 =>
      cases h2 : updateServer env (af 2) t j now true s with
      | ok s2 =>
        unfold writeLastStatus
        simp only
        rw [keys_map_eq (fun x => statusRow_keys t j _ x), hup (af 2) s2 h2]
      | error e2 =>
        unfold writeFailStatus
        simp only
        rw [keys_map_eq (fun x => failRow_keys t j _ _ x)]

lemma findRec_sweepOne_other (env : RotateEnv) (af : Nat → Faults)
    (t' : String) (j : Nat) (now : Int) (s : DBState) (t : String) (i : Nat)
    (hne : ¬ (t' = t ∧ j = i)) :
    findRec (sweepOne env af t' j now s) t i = findRec s t i := by
  unfold sweepOne
  cases h0 : updateServer env (af 0) t' j now true s with
  | ok s0 =>
    rw [findRec_writeLastStatus_other t i _ hne, findRec_updateServer_ok h0 t i hne]
  | error e0 =>
    cases h1 : updateServer env (af 1) t' j now true s with
    | ok s1 =>
      rw [findRec_writeLastStatus_other t i _ hne,
        findRec_updateServer_ok h1 t i hne]
    | error e1 =>
      cases h2 : updateServer env (af 2) t' j now true s with
      | ok s2 =>
        rw [findRec_writeLastStatus_other t i _ hne,
          findRec_updateServer_ok h2 t i hne]
      | error e2 => exact findRec_writeFailStatus_other t i _ _ hne

lemma sweepOne_self (env : RotateEnv) (af : Nat → Faults) {t : String}
    {i : Nat} (now : Int) {s : DBState} {r : ServerRow}
    (hfind : findRec s t i = some r) :
    ∃ r', findRec (sweepOne env af t i now s) t i = some r' ∧
      (r'.lastUpdateStatus = "更新成功" ∨
       ∃ e : RotErr, r'.lastUpdateStatus = "更新失败：" ++ rotErrMsg e ∧
         r'.nextUpdateTime = now + env.updateIntervalHours * 3600) := by
  have hok : ∀ (f : Faults) (s0 : DBState),
      updateServer env f t i now true s = .ok s0 →
      ∃ r0, findRec s0 t i = some r0 := by
    intro f s0 h
    rcases updateServer_ok_spec h with ⟨r0, p, sel, rest, hr0, _, _, hs0⟩
    subst hs0
    rw [hfind] at hr0
    injection hr0 with hr0
    subst hr0
    exact ⟨_, findRecL_updated hfind p sel.domain _⟩
  unfold sweepOne
  cases h0 : updateServer env (af 0) t i now true s with
  | ok s0 =>
    rcases hok (af 0) s0 h0 with ⟨r0, hr0⟩
    exact ⟨_, findRec_writeLastStatus_self hr0 _, Or.inl rfl⟩
  | error e0 =>
    cases h1 : updateServer env (af 1) t i now true s with
    | ok s1 =>
      rcases hok (af 1) s1 h1 with ⟨r1, hr1⟩
      exact ⟨_, findRec_writeLastStatus_self hr1 _, Or.inl rfl⟩
    | error e1 =>
      cases h2 : updateServer env (af 2) t i now true s with
      | ok s2 =>
        rcases hok (af 2) s2 h2 with ⟨r2, hr2⟩
        exact ⟨_, findRec_writeLastStatus_self hr2 _, Or.inl rfl⟩
      | error e2 =>
        exact ⟨_, findRec_writeFailStatus_self hfind _ _,
          Or.inr ⟨e2, rfl, rfl⟩⟩

lemma fold_sweep_untouched (env : RotateEnv) (g : Nat → Nat → Faults)
    (t' : String) (ids : List Nat) (now : Int) (st : DBState) (t : String)
    (i : Nat) (hne : ∀ j ∈ ids, ¬ (t' = t ∧ j = i)) :
    findRec (ids.foldl (fun st2 j => sweepOne env (g j) t' j now st2) st) t i =
      findRec st t i := by
  induction ids generalizing st with
  | nil => rfl
  | cons j js ih =>
    rw [List.foldl_cons,
      ih _ (fun k hk => hne k (List.mem_cons_of_mem _ hk)),
      findRec_sweepOne_other env (g j) t' j now st t i
        (hne j (List.mem_cons_self _ _))]

lemma keys_fold_sweep (env : RotateEnv) (g : Nat → Nat → Faults) (t' : String)
    (ids : List Nat) (now : Int) (st : DBState) :
    ((ids.foldl (fun st2 j => sweepOne env (g j) t' j now st2) st).servers).map
      keyOf = st.servers.map keyOf := by
  induction ids generalizing st with
  | nil => rfl
  | cons j js ih =>
    rw [List.foldl_cons, ih _, keys_sweepOne]

lemma fold_sweep_status (env : RotateEnv) (g : Nat → Nat → Faults) (t : String)
    (now : Int) (ids : List Nat) (st : DBState) (i : Nat) (r : ServerRow)
    (hmem : i ∈ ids) (hnd : ids.Nodup) (hfind : findRec st t i = some r) :
    ∃ r', findRec (ids.foldl (fun st2 j => sweepOne env (g j) t j now st2) st)
        t i = some r' ∧
      (r'.lastUpdateStatus = "更新成功" ∨
       ∃ e : RotErr, r'.lastUpdateStatus = "更新失败：" ++ rotErrMsg e ∧
         r'.nextUpdateTime = now + env.updateIntervalHours * 3600) := by
  induction ids generalizing st with
  | nil => cases hmem
  | cons j js ih =>
    rw [List.foldl_cons]
    rw [List.nodup_cons] at hnd
    rcases List.mem_cons.mp hmem with rfl | hm'
    · rcases sweepOne_self env (g i) now hfind with
        ⟨r', hr', hprop⟩
    -- hmm placeholder
      rw [fold_sweep_untouched env g t js now _ t i ?noti]
      case noti =>
        rintro k hk ⟨_, hki⟩
        exact hnd.1 (hki ▸ hk)
      exact ⟨r', hr', hprop⟩
    · have hne : ¬ (t = t ∧ j = i) := by
        rintro ⟨_, hji⟩
        exact hnd.1 (hji ▸ hm')
      exact ih (sweepOne env (g j) t j now st) hm' hnd.2
        (by rw [findRec_sweepOne_other env (g j) t j now st t i hne]; exact hfind)

lemma mem_dueIds {s : DBState} {t : String} {i : Nat} {now : Int}
    {r : ServerRow} (hfind : findRec s t i = some r)
    (hdue : r.nextUpdateTime ≤ now) : i ∈ dueIds s t now := by
  unfold dueIds
  have hmem := List.mem_of_find?_eq_some hfind
  have hr := List.find?_some hfind
  simp only [decide_eq_true_eq] at hr
  exact List.mem_map.mpr ⟨r,
    List.mem_filter.mpr ⟨hmem, by simp [hr.1, hdue]⟩, hr.2⟩

lemma nodup_ids_filter (l : List ServerRow) (p : ServerRow → Bool) (t : String)
    (hp : ∀ r, p r = true → r.table = t)
    (h : (l.map keyOf).Nodup) : ((l.filter p).map (fun r => r.id)).Nodup := by
  induction l with
  | nil => simp
  | cons a as ih =>
    rw [List.map_cons, List.nodup_cons] at h
    rw [List.filter_cons]
    cases hb : p a with
    | false => simpa using ih h.2
    | true =>
      simp only [if_pos]
      rw [List.map_cons, List.nodup_cons]
      constructor
      · intro hin
        rcases List.mem_map.mp hin with ⟨b, hbf, hbid⟩
        rcases List.mem_filter.mp hbf with ⟨hbas, hbp⟩
        have hbt : b.table = t := hp b hbp
        have hat : a.table = t := hp a hb
        refine h.1 ?_
        have : keyOf a = keyOf b := by
          unfold keyOf
          rw [hat, hbt, hbid]
        rw [this]
        exact List.mem_map_of_mem keyOf hbas
      · exact ih h.2

lemma nodup_dueIds {s : DBState} {t : String} {now : Int}
    (h : (s.servers.map keyOf).Nodup) : (dueIds s t now).Nodup := by
  unfold dueIds
  apply nodup_ids_filter s.servers _ t _ h
  intro r hr
  simp only [decide_eq_true_eq] at hr
  exact hr.1

lemma findRec_tableStep_other (env : RotateEnv)
    (af : String → Nat → Nat → Faults) (t' : String) (now : Int)
    (st : DBState) (t : String) (i : Nat) (hne : ¬ t' = t) :
    findRec (tableStep env af t' now st) t i = findRec st t i := by
  unfold tableStep
  apply fold_sweep_untouched env (fun j => af t' j) t' (dueIds st t' now) now st
    t i
  intro j _
  rintro ⟨h1, _⟩
  exact hne h1

lemma keys_tableStep (env : RotateEnv) (af : String → Nat → Nat → Faults)
    (t' : String) (now : Int) (st : DBState) :
    ((tableStep env af t' now st).servers).map keyOf =
      st.servers.map keyOf := by
  unfold tableStep
  exact keys_fold_sweep env (fun j => af t' j) t' (dueIds st t' now) now st

lemma fold_tables_untouched (env : RotateEnv)
    (af : String → Nat → Nat → Faults) (now : Int) (ts : List String)
    (st : DBState) (t : String) (i : Nat) (h : ∀ t2 ∈ ts, ¬ t2 = t) :
    findRec (ts.foldl (fun st2 t2 => tableStep env af t2 now st2) st) t i =
      findRec st t i := by
  induction ts generalizing st with
  | nil => rfl
  | cons t2 ts' ih =>
    rw [List.foldl_cons, ih _ (fun t3 h3 => h t3 (List.mem_cons_of_mem _ h3)),
      findRec_tableStep_other env af t2 now st t i
        (h t2 (List.mem_cons_self _ _))]

lemma tables_fold_status (env : RotateEnv) (af : String → Nat → Nat → Faults)
    (now : Int) (ts : List String) (st : DBState) (t : String) (i : Nat)
    (r : ServerRow) (hts : t ∈ ts) (htnd : ts.Nodup)
    (hkeys : (st.servers.map keyOf).Nodup)
    (hfind : findRec st t i = some r) (hdue : r.nextUpdateTime ≤ now) :
    ∃ r', findRec (ts.foldl (fun st2 t2 => tableStep env af t2 now st2) st)
        t i = some r' ∧
      (r'.lastUpdateStatus = "更新成功" ∨
       ∃ e : RotErr, r'.lastUpdateStatus = "更新失败：" ++ rotErrMsg e ∧
         r'.nextUpdateTime = now + env.updateIntervalHours * 3600) := by
  induction ts generalizing st with
  | nil => cases hts
  | cons t2 ts' ih =>
    rw [List.foldl_cons]
    rw [List.nodup_cons] at htnd
    rcases List.mem_cons.mp hts with rfl | hts'
    · rcases fold_sweep_status env (fun j => af t j) t now (dueIds st t now) st
        i r (mem_dueIds hfind hdue) (nodup_dueIds hkeys) hfind with
        ⟨r', hr', hprop⟩
      rw [fold_tables_untouched env af now ts' _ t i
        (fun t3 h3 ht3 => htnd.1 (ht3 ▸ h3))]
      exact ⟨r', hr', hprop⟩
    · have h2 : ¬ t2 = t := by
        intro he
        exact htnd.1 (he ▸ hts')
      apply ih (tableStep env af t2 now st) hts' htnd.2
      · rw [keys_tableStep]
        exact hkeys
      · rw [findRec_tableStep_other env af t2 now st t i h2]
        exact hfind

lemma find_of_mem_keys_nodup {l : List ServerRow}
    (h : (l.map keyOf).Nodup) {r : ServerRow} (hm : r ∈ l) :
    l.find? (fun x => decide (x.table = r.table ∧ x.id = r.id)) = some r := by
  induction l with
  | nil => cases hm
  | cons a as ih =>
    rw [List.map_cons, List.nodup_cons] at h
    rcases List.mem_cons.mp hm with rfl | hm'
    · rw [List.find?_cons]
      simp
    · have hne : ¬ (a.table = r.table ∧ a.id = r.id) := by
        rintro ⟨h1, h2⟩
        refine h.1 ?_
        have : keyOf a = keyOf r := by
          unfold keyOf
          rw [h1, h2]
        rw [this]
        exact List.mem_map_of_mem keyOf hm'
      rw [List.find?_cons]
      simp only [hne, decide_False]
      exact ih h.2 hm'

/-- C4: Scheduler retry and exhaustion policy — for one due record,
`sweepOne` runs up to three `updateServer` attempts back-to-back (the
loop has no inter-attempt delay; time is not modelled): the first
success immediately writes the success status and the later attempt
oracles are never consulted; if all three fail, the record gets the
failure status built from the *third* attempt's error together with a
forced `next_update_time = now + updateIntervalHours*3600`.  And across
a whole sweep (`checkAndUpdateServers`), every record that was due at
sweep time — whatever happened to the records processed before it —
ends with either the success status or such a forced failure record. -/
theorem scheduler_retry_policy (env : RotateEnv) (afr : Nat → Faults)
    (af : String → Nat → Nat → Faults) (table : String) (id : Nat)
    (now : Int) (s : DBState) :
    (∀ s0, updateServer env (afr 0) table id now true s = .ok s0 →
      sweepOne env afr table id now s = writeLastStatus s0 table id "更新成功") ∧
    (∀ e0 s1, updateServer env (afr 0) table id now true s = .error e0 →
      updateServer env (afr 1) table id now true s = .ok s1 →
      sweepOne env afr table id now s = writeLastStatus s1 table id "更新成功") ∧
    (∀ e0 e1 s2, updateServer env (afr 0) table id now true s = .error e0 →
      updateServer env (afr 1) table id now true s = .error e1 →
      updateServer env (afr 2) table id now true s = .ok s2 →
      sweepOne env afr table id now s = writeLastStatus s2 table id "更新成功") ∧
    (∀ e0 e1 e2, updateServer env (afr 0) table id now true s = .error e0 →
      updateServer env (afr 1) table id now true s = .error e1 →
      updateServer env (afr 2) table id now true s = .error e2 →
      sweepOne env afr table id now s =
        writeFailStatus s table id ("更新失败：" ++ rotErrMsg e2)
          (now + env.updateIntervalHours * 3600)) ∧
    (∀ r ∈ s.servers, (s.servers.map keyOf).Nodup → r.table ∈ validTables →
      r.nextUpdateTime ≤ now →
      ∃ r', findRec (checkAndUpdateServers env af now s) r.table r.id =
          some r' ∧
        (r'.lastUpdateStatus = "更新成功" ∨
         ∃ e : RotErr, r'.lastUpdateStatus = "更新失败：" ++ rotErrMsg e ∧
           r'.nextUpdateTime = now + env.updateIntervalHours * 3600)) := by
  refine ⟨?_, ?_, ?_, ?_, ?_⟩
  · intro s0 h0
    unfold sweepOne
    rw [h0]
  · intro e0 s1 h0 h1
    unfold sweepOne
    rw [h0, h1]
  · intro e0 e1 s2 h0 h1 h2
    unfold sweepOne
    rw [h0, h1, h2]
  · intro e0 e1 e2 h0 h1 h2
    unfold sweepOne
    rw [h0, h1, h2]
  · intro r hr hkeys htab hdue
    have hfind : findRec s r.table r.id = some r :=
      find_of_mem_keys_nodup hkeys hr
    unfold checkAndUpdateServers
    exact tables_fold_status env af now validTables s r.table r.id r htab
      (by decide) hkeys hfind hdue

theorem scheduler_retry_policy_witness :
    (sweepOne sampleEnv (fun _ => noFaults) "v2_server_vless" 4 100
        dueFailState =
      writeFailStatus dueFailState "v2_server_vless" 4
        ("更新失败：" ++ rotErrMsg .noAvailableDomain) (100 + 24 * 3600)) ∧
    (∃ r', findRec (checkAndUpdateServers sampleEnv (fun _ _ _ => noFaults)
        100 dueFailState) "v2_server_vless" 4 = some r' ∧
      (r'.lastUpdateStatus = "更新成功" ∨
       ∃ e : RotErr, r'.lastUpdateStatus = "更新失败：" ++ rotErrMsg e ∧
         r'.nextUpdateTime = 100 + sampleEnv.updateIntervalHours * 3600)) := by
  constructor
  · exact (scheduler_retry_policy sampleEnv (fun _ => noFaults)
      (fun _ _ _ => noFaults) "v2_server_vless" 4 100 dueFailState).2.2.2.1
      .noAvailableDomain .noAvailableDomain .noAvailableDomain rfl rfl rfl
  · exact (scheduler_retry_policy sampleEnv (fun _ => noFaults)
      (fun _ _ _ => noFaults) "v2_server_vless" 4 100 dueFailState).2.2.2.2
      ⟨"v2_server_vless", 4, "8080", 8080, "", 0, ""⟩ (by decide) (by decide)
      (by decide) (by decide)

end ServerManager
